import Mathlib

/-!
Shallow embedding of the VirtualDoctor canister (src/src/index.ts).

The repository file concatenates three near-duplicate iterations of the same
canister.  The first iteration (the one with time-slotted bookings) is embedded
in namespace `VD`; the second iteration (the one that stamps an `owner`
principal on profiles) is embedded in namespace `VD2`, since two claims address
its owner handling.

`StableBTreeMap` instances are modelled as lists of records kept in key order
(`azle`'s `values()` returns the values in key order).  The `int32` ids are
modelled as `Int` (JavaScript arithmetic on small ids does not wrap), `nat64`
timestamps as `Nat`.  JavaScript truthiness `!id` on an `int32` holds exactly
for `id = 0`, and `!username` on a string holds exactly for the empty string.
Each exported function becomes a function from the canister state to a result
(`Except` of the thrown message) together with the state after the call; the
ambient clock `ic.time()` becomes an explicit `now` argument.
-/

namespace VD

/-- A `User` record: `id : int32`, `username : string`, `createdAt : nat64`. -/
structure User where
  id : Int
  username : String
  createdAt : Nat
deriving Repr, DecidableEq

/-- A `Doctor` record: same shape as `User`. -/
structure Doctor where
  id : Int
  username : String
  createdAt : Nat
deriving Repr, DecidableEq

/-- A `Booking` record with its half-open session interval `[startAt, endAt)`. -/
structure Booking where
  id : Int
  userId : Int
  doctorId : Int
  createdAt : Nat
  startAt : Nat
  endAt : Nat
deriving Repr, DecidableEq

/-- The payload of `createBooking`. -/
structure BookingPayload where
  userId : Int
  doctorId : Int
  startSessionAt : Nat
  endSessionAt : Nat
deriving Repr, DecidableEq

/-- The three `StableBTreeMap` collections, each held in key order. -/
structure State where
  users : List User
  doctors : List Doctor
  bookings : List Booking
deriving Repr, DecidableEq

/-- The freshly deployed canister: all three maps empty. -/
def initState : State := ⟨[], [], []⟩

/-- `StableBTreeMap.insert`: place the value at its key position (key order). -/
def insertSorted (key : α → Int) (v : α) : List α → List α
  | [] => [v]
  | x :: xs =>
    if key v < key x then v :: x :: xs
    else if key v == key x then v :: xs
    else x :: insertSorted key v xs

/-- `StableBTreeMap.remove`: the removed value (if any) and the remaining map. -/
def removeKey (key : α → Int) (k : Int) : List α → Option α × List α
  | [] => (none, [])
  | x :: xs =>
    if key x == k then (some x, xs)
    else
      let r := removeKey key k xs
      (r.1, x :: r.2)

/-- `StableBTreeMap.containsKey`. -/
def containsKey (key : α → Int) (k : Int) (l : List α) : Bool :=
  l.any (fun x => key x == k)

/-- `StableBTreeMap.get`: `Opt` of the stored value. -/
def getKey (key : α → Int) (k : Int) (l : List α) : Option α :=
  l.find? (fun x => key x == k)

/-- `generateId`, as guarded at every call site: `1` on an empty collection,
otherwise the id of the last stored value (the highest key) plus one. -/
def generateId (key : α → Int) (l : List α) : Int :=
  match l.getLast? with
  | none => 1
  | some x => key x + 1

/-- `createUser(username)`: reject a missing username, reject a duplicate
username, otherwise insert a fresh user with the next id. -/
def createUser (username : String) (now : Nat) (s : State) :
    Except String User × State :=
  if username == "" then (.error "No username provided!", s)
  else if s.users.any (fun u => u.username == username) then
    (.error "Username already exist!", s)
  else
    let user : User :=
      { id := if s.users.isEmpty then 1 else generateId User.id s.users
        username := username
        createdAt := now }
    (.ok user, { s with users := insertSorted User.id user s.users })

/-- `getUsers()`. -/
def getUsers (s : State) : Except String (List User) × State :=
  (.ok s.users, s)

/-- `getUser(id)`: reject `id = 0`, otherwise return `users.get(id)` (an
`Opt`, `none` when the id is absent). -/
def getUser (id : Int) (s : State) : Except String (Option User) × State :=
  if id == 0 then (.error "Invalid user id!", s)
  else (.ok (getKey User.id id s.users), s)

/-- The cascade loop `bookings.values().forEach(b => if cond(b) then
bookings.remove(b.id))`: iterate the snapshot, removing from the live map. -/
def cascadeRemove (cond : Booking → Bool) (snapshot acc : List Booking) :
    List Booking :=
  snapshot.foldl (fun cur b => if cond b then (removeKey Booking.id b.id cur).2 else cur) acc

/-- `deleteUser(id)`: reject `id = 0`, remove every booking whose `userId`
matches, then remove (and return) the user. -/
def deleteUser (id : Int) (s : State) : Except String (Option User) × State :=
  if id == 0 then (.error "Invalid user id!", s)
  else
    let bookings1 := cascadeRemove (fun b => b.userId == id) s.bookings s.bookings
    let r := removeKey User.id id s.users
    (.ok r.1, { s with bookings := bookings1, users := r.2 })

/-- `createDoctor(username)`: mirror image of `createUser`. -/
def createDoctor (username : String) (now : Nat) (s : State) :
    Except String Doctor × State :=
  if username == "" then (.error "Username field required!", s)
  else if s.doctors.any (fun d => d.username == username) then
    (.error "Username already exist!", s)
  else
    let doctor : Doctor :=
      { id := if s.doctors.isEmpty then 1 else generateId Doctor.id s.doctors
        username := username
        createdAt := now }
    (.ok doctor, { s with doctors := insertSorted Doctor.id doctor s.doctors })

/-- `getDoctors()`. -/
def getDoctors (s : State) : Except String (List Doctor) × State :=
  (.ok s.doctors, s)

/-- `getDoctor(id)`. -/
def getDoctor (id : Int) (s : State) : Except String (Option Doctor) × State :=
  if id == 0 then (.error "Invalid id field", s)
  else (.ok (getKey Doctor.id id s.doctors), s)

/-- `deleteDoctor(id)`: mirror image of `deleteUser`, cascading on `doctorId`. -/
def deleteDoctor (id : Int) (s : State) : Except String (Option Doctor) × State :=
  if id == 0 then (.error "Invalid id input field", s)
  else
    let bookings1 := cascadeRemove (fun b => b.doctorId == id) s.bookings s.bookings
    let r := removeKey Doctor.id id s.doctors
    (.ok r.1, { s with bookings := bookings1, doctors := r.2 })

/-- The predicate `createBooking` tests against every stored booking: the
stored booking shares the user or the doctor, and one of the three disjuncts
of the source's overlap expression holds. -/
def sessionConflict (userId doctorId : Int) (startAt endAt : Nat) (b : Booking) :
    Bool :=
  (b.userId == userId || b.doctorId == doctorId) &&
    ((decide (b.startAt ≤ startAt) && decide (endAt ≤ b.endAt)) ||
     decide (b.endAt ≥ startAt) ||
     (decide (b.startAt ≥ startAt) && decide (endAt ≤ b.startAt)))

/-- `createBooking(payload)`: validate ids, participant existence and the time
slot (the source tests `startAt <= now` twice and never tests `endAt`), scan
for a conflicting booking, then insert a fresh booking. -/
def createBooking (payload : BookingPayload) (now : Nat) (s : State) :
    Except String Booking × State :=
  if payload.userId == 0 || payload.doctorId == 0 then
    (.error "Invalid input fields", s)
  else if !containsKey Doctor.id payload.doctorId s.doctors ||
      !containsKey User.id payload.userId s.users then
    (.error "user or doctor with the given Id does not exist", s)
  else if decide (payload.startSessionAt ≤ now) || decide (payload.startSessionAt ≤ now) then
    (.error "startAt or endAt with the given time is invalid (passed)", s)
  else if s.bookings.any
      (sessionConflict payload.userId payload.doctorId payload.startSessionAt payload.endSessionAt) then
    (.error "A session has already been booked!", s)
  else
    let booking : Booking :=
      { id := if s.bookings.isEmpty then 1 else generateId Booking.id s.bookings
        userId := payload.userId
        doctorId := payload.doctorId
        createdAt := now
        startAt := payload.startSessionAt
        endAt := payload.endSessionAt }
    (.ok booking, { s with bookings := insertSorted Booking.id booking s.bookings })

/-- `getUserBookings(id)`: reject `id = 0`, otherwise filter by `userId`. -/
def getUserBookings (id : Int) (s : State) :
    Except String (List Booking) × State :=
  if id == 0 then (.error "Invalid id input field!", s)
  else (.ok (s.bookings.filter (fun b => b.userId == id)), s)

/-- `getDoctorBookings(id)`: reject `id = 0`, otherwise filter by `doctorId`. -/
def getDoctorBookings (id : Int) (s : State) :
    Except String (List Booking) × State :=
  if id == 0 then (.error "Invalid id input field!", s)
  else (.ok (s.bookings.filter (fun b => b.doctorId == id)), s)

/-- `deleteBooking(id)`: reject `id = 0`, otherwise remove and return the
booking (`Opt`, `none` when absent). -/
def deleteBooking (id : Int) (s : State) : Except String (Option Booking) × State :=
  if id == 0 then (.error "Invalid input field!", s)
  else
    let r := removeKey Booking.id id s.bookings
    (.ok r.1, { s with bookings := r.2 })

/-- One call to any of the twelve exported functions. -/
inductive OpCall where
  | cUser (username : String) (now : Nat)
  | qUsers
  | qUser (id : Int)
  | dUser (id : Int)
  | cDoctor (username : String) (now : Nat)
  | qDoctors
  | qDoctor (id : Int)
  | dDoctor (id : Int)
  | cBooking (payload : BookingPayload) (now : Nat)
  | qUserBookings (id : Int)
  | qDoctorBookings (id : Int)
  | dBooking (id : Int)
deriving Repr, DecidableEq

/-- Keep the thrown message and the state after the call, drop the value. -/
def forgetVal (r : Except String α × State) : Except String Unit × State :=
  (r.1.map (fun _ => ()), r.2)

/-- Dispatch one public call against the canister state. -/
def runOp : OpCall → State → Except String Unit × State
  | .cUser u now, s => forgetVal (createUser u now s)
  | .qUsers, s => forgetVal (getUsers s)
  | .qUser id, s => forgetVal (getUser id s)
  | .dUser id, s => forgetVal (deleteUser id s)
  | .cDoctor u now, s => forgetVal (createDoctor u now s)
  | .qDoctors, s => forgetVal (getDoctors s)
  | .qDoctor id, s => forgetVal (getDoctor id s)
  | .dDoctor id, s => forgetVal (deleteDoctor id s)
  | .cBooking p now, s => forgetVal (createBooking p now s)
  | .qUserBookings id, s => forgetVal (getUserBookings id s)
  | .qDoctorBookings id, s => forgetVal (getDoctorBookings id s)
  | .dBooking id, s => forgetVal (deleteBooking id s)

/-- States reachable from the fresh canister by public calls. -/
inductive Reachable : State → Prop where
  | init : Reachable initState
  | step (c : OpCall) {s : State} : Reachable s → Reachable (runOp c s).2

/-- Keys strictly increase along the list: the shape of a `StableBTreeMap`. -/
def KeySorted (key : α → Int) (l : List α) : Prop :=
  l.Pairwise (fun a b => key a < key b)

/-- Well-formedness of a canister state: each map is in strict key order,
usernames are unique and non-empty per collection, every booking references a
stored user and a stored doctor by nonzero ids. -/
structure Good (s : State) : Prop where
  su : KeySorted User.id s.users
  sd : KeySorted Doctor.id s.doctors
  sb : KeySorted Booking.id s.bookings
  uu : (s.users.map User.username).Nodup
  du : (s.doctors.map Doctor.username).Nodup
  une : ∀ u ∈ s.users, u.username ≠ ""
  dne : ∀ d ∈ s.doctors, d.username ≠ ""
  refU : ∀ b ∈ s.bookings, ∃ u ∈ s.users, u.id = b.userId
  refD : ∀ b ∈ s.bookings, ∃ d ∈ s.doctors, d.id = b.doctorId
  bnz : ∀ b ∈ s.bookings, b.userId ≠ 0 ∧ b.doctorId ≠ 0

/-- The id sequence `1, 2, ..., n`. -/
def idsFrom1 (n : Nat) : List Int :=
  (List.range n).map (fun i => ((i + 1 : Nat) : Int))

/-- Run a sequence of `createUser` calls (username and clock reading each). -/
def runCreateUsers : List (String × Nat) → State → State
  | [], s => s
  | (u, now) :: rest, s => runCreateUsers rest (createUser u now s).2

/-- Every `createUser` call in the sequence succeeds. -/
def createUsersOk : List (String × Nat) → State → Bool
  | [], _ => true
  | (u, now) :: rest, s =>
    match createUser u now s with
    | (Except.ok _, s1) => createUsersOk rest s1
    | (Except.error _, _) => false

/-- Run a sequence of `createDoctor` calls. -/
def runCreateDoctors : List (String × Nat) → State → State
  | [], s => s
  | (u, now) :: rest, s => runCreateDoctors rest (createDoctor u now s).2

/-- Every `createDoctor` call in the sequence succeeds. -/
def createDoctorsOk : List (String × Nat) → State → Bool
  | [], _ => true
  | (u, now) :: rest, s =>
    match createDoctor u now s with
    | (Except.ok _, s1) => createDoctorsOk rest s1
    | (Except.error _, _) => false

/-- Run a sequence of `createBooking` calls (payload and clock reading each). -/
def runCreateBookings : List (BookingPayload × Nat) → State → State
  | [], s => s
  | (p, now) :: rest, s => runCreateBookings rest (createBooking p now s).2

/-- Every `createBooking` call in the sequence succeeds. -/
def createBookingsOk : List (BookingPayload × Nat) → State → Bool
  | [], _ => true
  | (p, now) :: rest, s =>
    match createBooking p now s with
    | (Except.ok _, s1) => createBookingsOk rest s1
    | (Except.error _, _) => false

/-- Modelled from the spec: the intended half-open overlap test of section 4.4,
two intervals `[s1,e1)` and `[s2,e2)` overlap iff `s1 < e2 && s2 < e1`.  The
source's `createBooking` does not implement this test; it is stated here only
to compare the two. -/
def specOverlap (s1 e1 s2 e2 : Nat) : Bool :=
  decide (s1 < e2) && decide (s2 < e1)

/-- One user (id 1), one doctor (id 1), one booking on `[10, 20)`. -/
def bookedState : State :=
  { users := [{ id := 1, username := "alice", createdAt := 0 }]
    doctors := [{ id := 1, username := "bob", createdAt := 0 }]
    bookings := [{ id := 1, userId := 1, doctorId := 1, createdAt := 0, startAt := 10, endAt := 20 }] }

/-- One user (id 1) and one doctor (id 1), no bookings yet. -/
def freshPairState : State :=
  { users := [{ id := 1, username := "alice", createdAt := 0 }]
    doctors := [{ id := 1, username := "bob", createdAt := 0 }]
    bookings := [] }

/-- A reachable state: one user, one doctor, one booking, built by public calls. -/
def sampleState : State :=
  (runOp (.cBooking { userId := 1, doctorId := 1, startSessionAt := 10, endSessionAt := 20 } 5)
    (runOp (.cDoctor "bob" 0) (runOp (.cUser "alice" 0) initState).2).2).2

end VD

namespace VD2

/-- An opaque caller principal of the hosting runtime. -/
abbrev Principal := Nat

/-- A `User` record of the second iteration, carrying its `owner` principal. -/
structure User where
  id : Int
  username : String
  owner : Principal
  createdAt : Nat
deriving Repr, DecidableEq

/-- A `Doctor` record of the second iteration. -/
structure Doctor where
  id : Int
  username : String
  owner : Principal
  createdAt : Nat
deriving Repr, DecidableEq

/-- A `Booking` record of the second iteration (no time interval). -/
structure Booking where
  id : Int
  userId : Int
  doctorId : Int
  createdAt : Nat
deriving Repr, DecidableEq

/-- The three collections of the second iteration. -/
structure State where
  users : List User
  doctors : List Doctor
  bookings : List Booking
deriving Repr, DecidableEq

/-- The freshly deployed canister of the second iteration. -/
def initState : State := ⟨[], [], []⟩

/-- `createUser(username)` of the second iteration.  The stamped `owner` is
`ic.provisional_create_canister({ controller: ic.caller() })`, the principal of
a canister freshly created by the runtime — an external effect, passed here as
the explicit argument `owner`. -/
def createUser (username : String) (owner : Principal) (now : Nat) (s : State) :
    Except String User × State :=
  if username == "" then (.error "No username provided!", s)
  else if s.users.any (fun u => u.username == username) then
    (.error "Username already exists!", s)
  else
    let user : User :=
      { id := VD.generateId User.id s.users
        username := username
        owner := owner
        createdAt := now }
    (.ok user, { s with users := VD.insertSorted User.id user s.users })

/-- The cascade loop of the second iteration's `deleteUser`. -/
def cascadeRemove (cond : Booking → Bool) (snapshot acc : List Booking) :
    List Booking :=
  snapshot.foldl (fun cur b => if cond b then (VD.removeKey Booking.id b.id cur).2 else cur) acc

/-- `deleteUser(id)` of the second iteration.  The ambient caller principal is
passed explicitly to record what the body does with it: nothing — there is no
owner comparison before the cascade and the removal. -/
def deleteUser (caller : Principal) (id : Int) (s : State) :
    Except String (Option User) × State :=
  if id == 0 then (.error "Invalid user id!", s)
  else
    let bookings1 := cascadeRemove (fun b => b.userId == id) s.bookings s.bookings
    let r := VD.removeKey User.id id s.users
    (.ok r.1, { s with bookings := bookings1, users := r.2 })

end VD2

namespace VD

theorem insertSorted_append (key : α → Int) (v : α) (l : List α)
    (h : ∀ x ∈ l, key x < key v) : insertSorted key v l = l ++ [v] := by
  induction l with
  | nil => rfl
  | cons x xs ih =>
    have hx : key x < key v := h x (List.mem_cons_self x xs)
    unfold insertSorted
    rw [if_neg (by omega), if_neg (by simpa using Int.ne_of_gt hx)]
    simp only [List.cons_append, List.cons.injEq, true_and]
    exact ih (fun y hy => h y (List.mem_cons_of_mem x hy))

theorem removeKey_sublist (key : α → Int) (k : Int) (l : List α) :
    (removeKey key k l).2.Sublist l := by
  induction l with
  | nil => simp [removeKey]
  | cons x xs ih =>
    unfold removeKey
    by_cases hx : key x == k
    · simpa [hx] using (List.sublist_cons x xs)
    · simpa [hx] using ih.cons₂ x

theorem mem_of_mem_removeKey {key : α → Int} {k : Int} {l : List α} {x : α}
    (h : x ∈ (removeKey key k l).2) : x ∈ l :=
  (removeKey_sublist key k l).subset h

theorem keySorted_removeKey {key : α → Int} {k : Int} {l : List α}
    (h : KeySorted key l) : KeySorted key (removeKey key k l).2 :=
  List.Pairwise.sublist (removeKey_sublist key k l) h

theorem mem_removeKey_of_ne {key : α → Int} {k : Int} {l : List α} {x : α}
    (hx : x ∈ l) (hk : key x ≠ k) : x ∈ (removeKey key k l).2 := by
  induction l with
  | nil => simp at hx
  | cons a xs ih =>
    unfold removeKey
    by_cases ha : key a == k
    · rcases List.mem_cons.mp hx with rfl | hmem
      · exact absurd (by simpa using ha) hk
      · simpa [ha] using hmem
    · rcases List.mem_cons.mp hx with rfl | hmem
      · simp [ha]
      · simpa [ha] using Or.inr (ih hmem)

theorem not_mem_removeKey_self {key : α → Int} {l : List α} {x : α}
    (h : KeySorted key l) (hx : x ∈ (removeKey key (key x) l).2) : False := by
  induction l with
  | nil => simp [removeKey] at hx
  | cons a xs ih =>
    unfold removeKey at hx
    by_cases ha : key a == key x
    · simp only [ha, if_pos] at hx
      have hax : key a = key x := by simpa using ha
      have hlt : key a < key x := (List.pairwise_cons.mp h).1 x hx
      omega
    · simp only [ha, if_neg] at hx
      simp only [Bool.false_eq_true, if_false] at hx
      rcases List.mem_cons.mp hx with rfl | hmem
      · simp at ha
      · exact ih (List.pairwise_cons.mp h).2 hmem

theorem removeKey_fst_some {key : α → Int} {k : Int} {l : List α} {x : α}
    (h : KeySorted key l) (hx : x ∈ l) (hk : key x = k) :
    (removeKey key k l).1 = some x := by
  induction l with
  | nil => simp at hx
  | cons a xs ih =>
    unfold removeKey
    by_cases ha : key a == k
    · simp only [ha, if_pos]
      rcases List.mem_cons.mp hx with rfl | hmem
      · rfl
      · have hlt : key a < key x := (List.pairwise_cons.mp h).1 x hmem
        have : key a = k := by simpa using ha
        omega
    · rcases List.mem_cons.mp hx with rfl | hmem
      · exact absurd (by simpa using hk) (by simpa using ha)
      · simpa [ha] using ih (List.pairwise_cons.mp h).2 hmem

theorem removeKey_absent {key : α → Int} {k : Int} {l : List α}
    (h : ∀ x ∈ l, key x ≠ k) : removeKey key k l = (none, l) := by
  induction l with
  | nil => rfl
  | cons a xs ih =>
    unfold removeKey
    have ha : ¬(key a == k) := by
      simpa using h a (List.mem_cons_self a xs)
    rw [if_neg (by simpa using ha)]
    rw [ih (fun x hx => h x (List.mem_cons_of_mem a hx))]

theorem removeKey_eq_filter {key : α → Int} {k : Int} {l : List α}
    (h : KeySorted key l) :
    (removeKey key k l).2 = l.filter (fun x => !(key x == k)) := by
  induction l with
  | nil => rfl
  | cons a xs ih =>
    unfold removeKey
    by_cases ha : key a == k
    · have hka : key a = k := by simpa using ha
      have hxs : ∀ x ∈ xs, (!(key x == k)) = true := by
        intro x hx
        have hlt : key a < key x := (List.pairwise_cons.mp h).1 x hx
        simp only [Bool.not_eq_true']
        simp only [beq_eq_false_iff_ne, ne_eq]
        omega
      simp only [ha, if_pos, List.filter_cons]
      rw [if_neg (by simp [hka]), List.filter_eq_self.mpr hxs]
    · simp only [ha, Bool.false_eq_true, if_false, List.filter_cons]
      rw [if_pos (by simpa using ha), ih (List.pairwise_cons.mp h).2]

theorem getKey_absent {key : α → Int} {k : Int} {l : List α}
    (h : ∀ x ∈ l, key x ≠ k) : getKey key k l = none := by
  unfold getKey
  rw [List.find?_eq_none]
  intro x hx
  simpa using h x hx

theorem containsKey_iff {key : α → Int} {k : Int} {l : List α} :
    containsKey key k l = true ↔ ∃ x ∈ l, key x = k := by
  unfold containsKey
  simp [List.any_eq_true]

theorem generateId_cons_cons (key : α → Int) (a b : α) (l : List α) :
    generateId key (a :: b :: l) = generateId key (b :: l) := by
  simp [generateId, List.getLast?_cons_cons]

theorem lt_generateId {key : α → Int} {l : List α}
    (h : KeySorted key l) : ∀ x ∈ l, key x < generateId key l := by
  induction l with
  | nil => intro x hx; simp at hx
  | cons a xs ih =>
    intro x hx
    cases xs with
    | nil =>
      rcases List.mem_cons.mp hx with rfl | hmem
      · show key x < key x + 1
        omega
      · simp at hmem
    | cons b ys =>
      rw [generateId_cons_cons]
      rcases List.mem_cons.mp hx with rfl | hmem
      · have h1 : key x < key b := (List.pairwise_cons.mp h).1 b (List.mem_cons_self b ys)
        have h2 : key b < generateId key (b :: ys) :=
          ih (List.pairwise_cons.mp h).2 b (List.mem_cons_self b ys)
        omega
      · exact ih (List.pairwise_cons.mp h).2 x hmem

theorem generateId_mem {key : α → Int} {l : List α} (h : l ≠ []) :
    ∃ x ∈ l, generateId key l = key x + 1 := by
  induction l with
  | nil => exact absurd rfl h
  | cons a xs ih =>
    cases xs with
    | nil => exact ⟨a, List.mem_cons_self a [], rfl⟩
    | cons b ys =>
      obtain ⟨x, hx, hgen⟩ := ih (by simp)
      exact ⟨x, List.mem_cons_of_mem a hx, by rw [generateId_cons_cons]; exact hgen⟩

theorem lt_nextId {key : α → Int} {l : List α} {x : α}
    (h : KeySorted key l) (hx : x ∈ l) :
    key x < (if l.isEmpty then 1 else generateId key l) := by
  cases l with
  | nil => simp at hx
  | cons a xs => simpa using lt_generateId h x hx

theorem keySorted_append_fresh {key : α → Int} {l : List α} {v : α}
    (h : KeySorted key l) (hv : ∀ x ∈ l, key x < key v) :
    KeySorted key (l ++ [v]) := by
  rw [KeySorted, List.pairwise_append]
  refine ⟨h, List.pairwise_singleton _ _, ?_⟩
  intro x hx y hy
  rw [List.mem_singleton] at hy
  subst hy
  exact hv x hx

theorem cascadeRemove_cons (cond : Booking → Bool) (b : Booking)
    (snap acc : List Booking) :
    cascadeRemove cond (b :: snap) acc =
      cascadeRemove cond snap (if cond b then (removeKey Booking.id b.id acc).2 else acc) := rfl

theorem cascadeRemove_sublist (cond : Booking → Bool) (snap acc : List Booking) :
    (cascadeRemove cond snap acc).Sublist acc := by
  induction snap generalizing acc with
  | nil => exact List.Sublist.refl acc
  | cons b snap ih =>
    rw [cascadeRemove_cons]
    by_cases hb : cond b
    · simp only [hb, if_pos]
      exact (ih _).trans (removeKey_sublist Booking.id b.id acc)
    · simpa [hb] using ih acc

theorem mem_cascadeRemove {cond : Booking → Bool} {snap acc : List Booking}
    {x : Booking} (h : KeySorted Booking.id acc)
    (hx : x ∈ cascadeRemove cond snap acc) :
    x ∈ acc ∧ ∀ b ∈ snap, cond b = true → b.id ≠ x.id := by
  induction snap generalizing acc with
  | nil =>
    exact ⟨hx, by intro b hb; simp at hb⟩
  | cons b snap ih =>
    rw [cascadeRemove_cons] at hx
    by_cases hb : cond b
    · simp only [hb, if_pos] at hx
      obtain ⟨hmem, hrest⟩ := ih (keySorted_removeKey h) hx
      have hxacc : x ∈ acc := mem_of_mem_removeKey hmem
      refine ⟨hxacc, ?_⟩
      intro b' hb' hcond
      rcases List.mem_cons.mp hb' with rfl | hmem'
      · intro hid
        rw [hid] at hmem
        exact not_mem_removeKey_self h hmem
      · exact hrest b' hmem' hcond
    · simp only [hb, Bool.false_eq_true, if_false] at hx
      obtain ⟨hmem, hrest⟩ := ih h hx
      refine ⟨hmem, ?_⟩
      intro b' hb' hcond
      rcases List.mem_cons.mp hb' with rfl | hmem'
      · exact absurd hcond (by simpa using hb)
      · exact hrest b' hmem' hcond

theorem good_init : Good initState := by
  constructor <;> simp [initState, KeySorted]

theorem good_createUser {s : State} (h : Good s) (u : String) (now : Nat) :
    Good (createUser u now s).2 := by
  unfold createUser
  by_cases h1 : u == ""
  · simpa [h1] using h
  · by_cases h2 : s.users.any (fun x => x.username == u)
    · simpa [h1, h2] using h
    · simp only [h1, Bool.false_eq_true, if_false, h2]
      set nu : User :=
        { id := if s.users.isEmpty then 1 else generateId User.id s.users
          username := u, createdAt := now } with hnu
      have hfresh : ∀ x ∈ s.users, User.id x < User.id nu :=
        fun x hx => lt_nextId h.su hx
      have hins : insertSorted User.id nu s.users = s.users ++ [nu] :=
        insertSorted_append User.id nu s.users hfresh
      have husers : ∀ x ∈ s.users, x.username ≠ u := by
        intro x hx hc
        exact h2 (List.any_eq_true.mpr ⟨x, hx, by simp [hc]⟩)
      refine ⟨?_, h.sd, h.sb, ?_, h.du, ?_, h.dne, ?_, ?_, h.bnz⟩
      · simp only [hins]
        exact keySorted_append_fresh h.su hfresh
      · simp only [hins, List.map_append, List.map_cons, List.map_nil]
        rw [List.nodup_append]
        refine ⟨h.uu, List.nodup_singleton _, ?_⟩
        intro a ha hb
        rw [List.mem_singleton] at hb
        subst hb
        obtain ⟨x, hx, hxa⟩ := List.mem_map.mp ha
        exact husers x hx hxa
      · intro x hx
        simp only [hins] at hx
        rcases List.mem_append.mp hx with hmem | hmem
        · exact h.une x hmem
        · rw [List.mem_singleton] at hmem
          subst hmem
          simpa using h1
      · intro b hb
        obtain ⟨x, hx, hxid⟩ := h.refU b hb
        have hx2 : x ∈ insertSorted User.id nu s.users := by
          rw [hins]
          exact List.mem_append.mpr (Or.inl hx)
        exact ⟨x, hx2, hxid⟩
      · exact h.refD

theorem good_createDoctor {s : State} (h : Good s) (u : String) (now : Nat) :
    Good (createDoctor u now s).2 := by
  unfold createDoctor
  by_cases h1 : u == ""
  · simpa [h1] using h
  · by_cases h2 : s.doctors.any (fun x => x.username == u)
    · simpa [h1, h2] using h
    · simp only [h1, Bool.false_eq_true, if_false, h2]
      set nd : Doctor :=
        { id := if s.doctors.isEmpty then 1 else generateId Doctor.id s.doctors
          username := u, createdAt := now } with hnd
      have hfresh : ∀ x ∈ s.doctors, Doctor.id x < Doctor.id nd :=
        fun x hx => lt_nextId h.sd hx
      have hins : insertSorted Doctor.id nd s.doctors = s.doctors ++ [nd] :=
        insertSorted_append Doctor.id nd s.doctors hfresh
      have hdocs : ∀ x ∈ s.doctors, x.username ≠ u := by
        intro x hx hc
        exact h2 (List.any_eq_true.mpr ⟨x, hx, by simp [hc]⟩)
      refine ⟨h.su, ?_, h.sb, h.uu, ?_, h.une, ?_, h.refU, ?_, h.bnz⟩
      · simp only [hins]
        exact keySorted_append_fresh h.sd hfresh
      · simp only [hins, List.map_append, List.map_cons, List.map_nil]
        rw [List.nodup_append]
        refine ⟨h.du, List.nodup_singleton _, ?_⟩
        intro a ha hb
        rw [List.mem_singleton] at hb
        subst hb
        obtain ⟨x, hx, hxa⟩ := List.mem_map.mp ha
        exact hdocs x hx hxa
      · intro x hx
        simp only [hins] at hx
        rcases List.mem_append.mp hx with hmem | hmem
        · exact h.dne x hmem
        · rw [List.mem_singleton] at hmem
          subst hmem
          simpa using h1
      · intro b hb
        obtain ⟨x, hx, hxid⟩ := h.refD b hb
        have hx2 : x ∈ insertSorted Doctor.id nd s.doctors := by
          rw [hins]
          exact List.mem_append.mpr (Or.inl hx)
        exact ⟨x, hx2, hxid⟩

theorem cascade_survivor_ne {cond : Booking → Bool} {s : State} {x : Booking}
    (hsb : KeySorted Booking.id s.bookings)
    (hx : x ∈ cascadeRemove cond s.bookings s.bookings) :
    x ∈ s.bookings ∧ cond x = false := by
  obtain ⟨hmem, hall⟩ := mem_cascadeRemove hsb hx
  refine ⟨hmem, ?_⟩
  by_cases hc : cond x = true
  · exact absurd rfl (hall x hmem hc)
  · simpa using hc

theorem good_deleteUser {s : State} (h : Good s) (id : Int) :
    Good (deleteUser id s).2 := by
  unfold deleteUser
  by_cases h0 : id == 0
  · simpa [h0] using h
  · simp only [h0, Bool.false_eq_true, if_false]
    have hbsub := cascadeRemove_sublist (fun b => b.userId == id) s.bookings s.bookings
    have husub := removeKey_sublist User.id id s.users
    refine ⟨?_, h.sd, ?_, ?_, h.du, ?_, h.dne, ?_, ?_, ?_⟩
    · exact keySorted_removeKey h.su
    · exact List.Pairwise.sublist hbsub h.sb
    · exact List.Nodup.sublist (husub.map User.username) h.uu
    · intro x hx
      exact h.une x (mem_of_mem_removeKey hx)
    · intro b hb
      obtain ⟨hmem, hcond⟩ := cascade_survivor_ne h.sb hb
      obtain ⟨u, hu, huid⟩ := h.refU b hmem
      have hne : b.userId ≠ id := by simpa using hcond
      exact ⟨u, mem_removeKey_of_ne hu (by rw [huid]; exact hne), huid⟩
    · intro b hb
      exact h.refD b (hbsub.subset hb)
    · intro b hb
      exact h.bnz b (hbsub.subset hb)

theorem good_deleteDoctor {s : State} (h : Good s) (id : Int) :
    Good (deleteDoctor id s).2 := by
  unfold deleteDoctor
  by_cases h0 : id == 0
  · simpa [h0] using h
  · simp only [h0, Bool.false_eq_true, if_false]
    have hbsub := cascadeRemove_sublist (fun b => b.doctorId == id) s.bookings s.bookings
    have hdsub := removeKey_sublist Doctor.id id s.doctors
    refine ⟨h.su, ?_, ?_, h.uu, ?_, h.une, ?_, ?_, ?_, ?_⟩
    · exact keySorted_removeKey h.sd
    · exact List.Pairwise.sublist hbsub h.sb
    · exact List.Nodup.sublist (hdsub.map Doctor.username) h.du
    · intro x hx
      exact h.dne x (mem_of_mem_removeKey hx)
    · intro b hb
      exact h.refU b (hbsub.subset hb)
    · intro b hb
      obtain ⟨hmem, hcond⟩ := cascade_survivor_ne h.sb hb
      obtain ⟨d, hd, hdid⟩ := h.refD b hmem
      have hne : b.doctorId ≠ id := by simpa using hcond
      exact ⟨d, mem_removeKey_of_ne hd (by rw [hdid]; exact hne), hdid⟩
    · intro b hb
      exact h.bnz b (hbsub.subset hb)

theorem good_createBooking {s : State} (h : Good s) (p : BookingPayload) (now : Nat) :
    Good (createBooking p now s).2 := by
  unfold createBooking
  by_cases h1 : (p.userId == 0 || p.doctorId == 0) = true
  · rw [if_pos h1]
    exact h
  · rw [if_neg h1]
    by_cases h2 : (!containsKey Doctor.id p.doctorId s.doctors ||
        !containsKey User.id p.userId s.users) = true
    · rw [if_pos h2]
      exact h
    · rw [if_neg h2]
      by_cases h3 : (decide (p.startSessionAt ≤ now) || decide (p.startSessionAt ≤ now)) = true
      · rw [if_pos h3]
        exact h
      · rw [if_neg h3]
        by_cases h4 : s.bookings.any
            (sessionConflict p.userId p.doctorId p.startSessionAt p.endSessionAt) = true
        · rw [if_pos h4]
          exact h
        · rw [if_neg h4]
          set nb : Booking :=
            { id := if s.bookings.isEmpty then 1 else generateId Booking.id s.bookings
              userId := p.userId, doctorId := p.doctorId, createdAt := now
              startAt := p.startSessionAt, endAt := p.endSessionAt } with hnb
          show Good { s with bookings := insertSorted Booking.id nb s.bookings }
          have hfresh : ∀ x ∈ s.bookings, Booking.id x < Booking.id nb :=
            fun x hx => lt_nextId h.sb hx
          have hins : insertSorted Booking.id nb s.bookings = s.bookings ++ [nb] :=
            insertSorted_append Booking.id nb s.bookings hfresh
          have hcontains : containsKey Doctor.id p.doctorId s.doctors = true ∧
              containsKey User.id p.userId s.users = true := by
            rcases Bool.or_eq_false_iff.mp (Bool.eq_false_iff.mpr h2) with ⟨ha, hb⟩
            exact ⟨by simpa using ha, by simpa using hb⟩
          have hnz : p.userId ≠ 0 ∧ p.doctorId ≠ 0 := by
            rcases Bool.or_eq_false_iff.mp (Bool.eq_false_iff.mpr h1) with ⟨ha, hb⟩
            exact ⟨by simpa using ha, by simpa using hb⟩
          refine ⟨h.su, h.sd, ?_, h.uu, h.du, h.une, h.dne, ?_, ?_, ?_⟩
          · show KeySorted Booking.id (insertSorted Booking.id nb s.bookings)
            rw [hins]
            exact keySorted_append_fresh h.sb hfresh
          · intro b hb
            rw [hins] at hb
            rcases List.mem_append.mp hb with hmem | hmem
            · exact h.refU b hmem
            · rw [List.mem_singleton] at hmem
              subst hmem
              obtain ⟨u, hu, huid⟩ := containsKey_iff.mp hcontains.2
              exact ⟨u, hu, huid⟩
          · intro b hb
            rw [hins] at hb
            rcases List.mem_append.mp hb with hmem | hmem
            · exact h.refD b hmem
            · rw [List.mem_singleton] at hmem
              subst hmem
              obtain ⟨d, hd, hdid⟩ := containsKey_iff.mp hcontains.1
              exact ⟨d, hd, hdid⟩
          · intro b hb
            rw [hins] at hb
            rcases List.mem_append.mp hb with hmem | hmem
            · exact h.bnz b hmem
            · rw [List.mem_singleton] at hmem
              subst hmem
              exact hnz

theorem good_deleteBooking {s : State} (h : Good s) (id : Int) :
    Good (deleteBooking id s).2 := by
  unfold deleteBooking
  by_cases h0 : id == 0
  · simpa [h0] using h
  · simp only [h0, Bool.false_eq_true, if_false]
    have hbsub := removeKey_sublist Booking.id id s.bookings
    exact ⟨h.su, h.sd, List.Pairwise.sublist hbsub h.sb, h.uu, h.du, h.une, h.dne,
      fun b hb => h.refU b (hbsub.subset hb),
      fun b hb => h.refD b (hbsub.subset hb),
      fun b hb => h.bnz b (hbsub.subset hb)⟩

theorem getUser_state (id : Int) (s : State) : (getUser id s).2 = s := by
  unfold getUser
  split <;> rfl

theorem getDoctor_state (id : Int) (s : State) : (getDoctor id s).2 = s := by
  unfold getDoctor
  split <;> rfl

theorem getUserBookings_state (id : Int) (s : State) : (getUserBookings id s).2 = s := by
  unfold getUserBookings
  split <;> rfl

theorem getDoctorBookings_state (id : Int) (s : State) : (getDoctorBookings id s).2 = s := by
  unfold getDoctorBookings
  split <;> rfl

theorem good_runOp {s : State} (h : Good s) (c : OpCall) : Good (runOp c s).2 := by
  cases c with
  | cUser u now => exact good_createUser h u now
  | qUsers => exact h
  | qUser id =>
    show Good (getUser id s).2
    rw [getUser_state]
    exact h
  | dUser id => exact good_deleteUser h id
  | cDoctor u now => exact good_createDoctor h u now
  | qDoctors => exact h
  | qDoctor id =>
    show Good (getDoctor id s).2
    rw [getDoctor_state]
    exact h
  | dDoctor id => exact good_deleteDoctor h id
  | cBooking p now => exact good_createBooking h p now
  | qUserBookings id =>
    show Good (getUserBookings id s).2
    rw [getUserBookings_state]
    exact h
  | qDoctorBookings id =>
    show Good (getDoctorBookings id s).2
    rw [getDoctorBookings_state]
    exact h
  | dBooking id => exact good_deleteBooking h id

theorem good_of_reachable {s : State} (h : Reachable s) : Good s := by
  induction h with
  | init => exact good_init
  | step c _ ih => exact good_runOp ih c

theorem idsFrom1_succ (n : Nat) : idsFrom1 (n + 1) = idsFrom1 n ++ [((n + 1 : Nat) : Int)] := by
  unfold idsFrom1
  rw [List.range_succ, List.map_append]
  rfl

theorem mem_idsFrom1 {n : Nat} {m : Int} (h : m ∈ idsFrom1 n) : 1 ≤ m ∧ m ≤ (n : Int) := by
  unfold idsFrom1 at h
  obtain ⟨i, hi, rfl⟩ := List.mem_map.mp h
  rw [List.mem_range] at hi
  omega

theorem nextId_of_idsFrom1 {key : α → Int} {l : List α} {n : Nat}
    (h : l.map key = idsFrom1 n) :
    (if l.isEmpty then 1 else generateId key l) = ((n + 1 : Nat) : Int) := by
  cases n with
  | zero =>
    have hl : l = [] := List.map_eq_nil_iff.mp h
    subst hl
    rfl
  | succ m =>
    have hne : l ≠ [] := by
      intro hl
      subst hl
      rw [idsFrom1_succ] at h
      simp at h
    rw [if_neg (by simpa using hne)]
    have hlast : l.getLast?.map key = some ((m + 1 : Nat) : Int) := by
      rw [← List.getLast?_map, h, idsFrom1_succ, List.getLast?_concat]
    cases hget : l.getLast? with
    | none => rw [hget] at hlast; simp at hlast
    | some x =>
      rw [hget] at hlast
      simp only [Option.map_some', Option.some.injEq] at hlast
      unfold generateId
      rw [hget]
      show key x + 1 = ((m + 1 + 1 : Nat) : Int)
      rw [hlast]
      push_cast
      ring

theorem map_insertSorted_fresh {key : α → Int} {l : List α} {v : α} {n : Nat}
    (hids : l.map key = idsFrom1 n) (hv : key v = ((n + 1 : Nat) : Int)) :
    (insertSorted key v l).map key = idsFrom1 (n + 1) := by
  have hb : ∀ x ∈ l, key x < key v := by
    intro x hx
    have hmem : key x ∈ idsFrom1 n := by
      rw [← hids]
      exact List.mem_map_of_mem key hx
    have := mem_idsFrom1 hmem
    omega
  rw [insertSorted_append key v l hb, List.map_append, hids, idsFrom1_succ]
  simp [hv]

theorem createUser_ok_ids {s s' : State} {u : String} {now : Nat} {v : User} {n : Nat}
    (hids : s.users.map User.id = idsFrom1 n)
    (hok : createUser u now s = (Except.ok v, s')) :
    s'.users.map User.id = idsFrom1 (n + 1) := by
  unfold createUser at hok
  by_cases h1 : (u == "") = true
  · rw [if_pos h1] at hok
    simp at hok
  · rw [if_neg h1] at hok
    by_cases h2 : (s.users.any fun x => x.username == u) = true
    · rw [if_pos h2] at hok
      simp at hok
    · rw [if_neg h2] at hok
      simp only [Prod.mk.injEq, Except.ok.injEq] at hok
      obtain ⟨_, hs'⟩ := hok
      subst hs'
      exact map_insertSorted_fresh hids (nextId_of_idsFrom1 hids)

theorem createDoctor_ok_ids {s s' : State} {u : String} {now : Nat} {v : Doctor} {n : Nat}
    (hids : s.doctors.map Doctor.id = idsFrom1 n)
    (hok : createDoctor u now s = (Except.ok v, s')) :
    s'.doctors.map Doctor.id = idsFrom1 (n + 1) := by
  unfold createDoctor at hok
  by_cases h1 : (u == "") = true
  · rw [if_pos h1] at hok
    simp at hok
  · rw [if_neg h1] at hok
    by_cases h2 : (s.doctors.any fun x => x.username == u) = true
    · rw [if_pos h2] at hok
      simp at hok
    · rw [if_neg h2] at hok
      simp only [Prod.mk.injEq, Except.ok.injEq] at hok
      obtain ⟨_, hs'⟩ := hok
      subst hs'
      exact map_insertSorted_fresh hids (nextId_of_idsFrom1 hids)

theorem createBooking_ok_ids {s s' : State} {p : BookingPayload} {now : Nat}
    {v : Booking} {n : Nat}
    (hids : s.bookings.map Booking.id = idsFrom1 n)
    (hok : createBooking p now s = (Except.ok v, s')) :
    s'.bookings.map Booking.id = idsFrom1 (n + 1) := by
  unfold createBooking at hok
  by_cases h1 : (p.userId == 0 || p.doctorId == 0) = true
  · rw [if_pos h1] at hok
    simp at hok
  · rw [if_neg h1] at hok
    by_cases h2 : (!containsKey Doctor.id p.doctorId s.doctors ||
        !containsKey User.id p.userId s.users) = true
    · rw [if_pos h2] at hok
      simp at hok
    · rw [if_neg h2] at hok
      by_cases h3 : (decide (p.startSessionAt ≤ now) || decide (p.startSessionAt ≤ now)) = true
      · rw [if_pos h3] at hok
        simp at hok
      · rw [if_neg h3] at hok
        by_cases h4 : s.bookings.any
            (sessionConflict p.userId p.doctorId p.startSessionAt p.endSessionAt) = true
        · rw [if_pos h4] at hok
          simp at hok
        · rw [if_neg h4] at hok
          simp only [Prod.mk.injEq, Except.ok.injEq] at hok
          obtain ⟨_, hs'⟩ := hok
          subst hs'
          exact map_insertSorted_fresh hids (nextId_of_idsFrom1 hids)

theorem runCreateUsers_ids (ps : List (String × Nat)) (s : State) (n : Nat)
    (hids : s.users.map User.id = idsFrom1 n)
    (hok : createUsersOk ps s = true) :
    (runCreateUsers ps s).users.map User.id = idsFrom1 (n + ps.length) := by
  induction ps generalizing s n with
  | nil => simpa using hids
  | cons p ps ih =>
    obtain ⟨u, now⟩ := p
    unfold createUsersOk at hok
    unfold runCreateUsers
    rcases hc : createUser u now s with ⟨r, s1⟩
    rw [hc] at hok
    cases r with
    | error e => simp at hok
    | ok v =>
      have h1 := createUser_ok_ids hids hc
      have h2 := ih s1 (n + 1) h1 hok
      have harith : n + 1 + ps.length = n + (ps.length + 1) := by omega
      rw [harith] at h2
      simpa using h2

theorem runCreateDoctors_ids (ps : List (String × Nat)) (s : State) (n : Nat)
    (hids : s.doctors.map Doctor.id = idsFrom1 n)
    (hok : createDoctorsOk ps s = true) :
    (runCreateDoctors ps s).doctors.map Doctor.id = idsFrom1 (n + ps.length) := by
  induction ps generalizing s n with
  | nil => simpa using hids
  | cons p ps ih =>
    obtain ⟨u, now⟩ := p
    unfold createDoctorsOk at hok
    unfold runCreateDoctors
    rcases hc : createDoctor u now s with ⟨r, s1⟩
    rw [hc] at hok
    cases r with
    | error e => simp at hok
    | ok v =>
      have h1 := createDoctor_ok_ids hids hc
      have h2 := ih s1 (n + 1) h1 hok
      have harith : n + 1 + ps.length = n + (ps.length + 1) := by omega
      rw [harith] at h2
      simpa using h2

theorem runCreateBookings_ids (ps : List (BookingPayload × Nat)) (s : State) (n : Nat)
    (hids : s.bookings.map Booking.id = idsFrom1 n)
    (hok : createBookingsOk ps s = true) :
    (runCreateBookings ps s).bookings.map Booking.id = idsFrom1 (n + ps.length) := by
  induction ps generalizing s n with
  | nil => simpa using hids
  | cons p ps ih =>
    obtain ⟨pay, now⟩ := p
    unfold createBookingsOk at hok
    unfold runCreateBookings
    rcases hc : createBooking pay now s with ⟨r, s1⟩
    rw [hc] at hok
    cases r with
    | error e => simp at hok
    | ok v =>
      have h1 := createBooking_ok_ids hids hc
      have h2 := ih s1 (n + 1) h1 hok
      have harith : n + 1 + ps.length = n + (ps.length + 1) := by omega
      rw [harith] at h2
      simpa using h2

theorem forgetVal_err {α : Type} {r : Except String α × State} {e : String}
    (h : (forgetVal r).1 = .error e) : r.1 = .error e := by
  rcases r with ⟨r1, s⟩
  cases r1 with
  | ok v => simp [forgetVal, Except.map] at h
  | error a => simpa [forgetVal, Except.map] using h

theorem createUser_err_state {u : String} {now : Nat} {s : State} {e : String}
    (h : (createUser u now s).1 = .error e) : (createUser u now s).2 = s := by
  unfold createUser at h ⊢
  by_cases h1 : (u == "") = true
  · rw [if_pos h1]
  · rw [if_neg h1] at h ⊢
    by_cases h2 : (s.users.any fun x => x.username == u) = true
    · rw [if_pos h2]
    · rw [if_neg h2] at h
      simp at h

theorem createDoctor_err_state {u : String} {now : Nat} {s : State} {e : String}
    (h : (createDoctor u now s).1 = .error e) : (createDoctor u now s).2 = s := by
  unfold createDoctor at h ⊢
  by_cases h1 : (u == "") = true
  · rw [if_pos h1]
  · rw [if_neg h1] at h ⊢
    by_cases h2 : (s.doctors.any fun x => x.username == u) = true
    · rw [if_pos h2]
    · rw [if_neg h2] at h
      simp at h

theorem deleteUser_err_state {id : Int} {s : State} {e : String}
    (h : (deleteUser id s).1 = .error e) : (deleteUser id s).2 = s := by
  unfold deleteUser at h ⊢
  by_cases h0 : (id == 0) = true
  · rw [if_pos h0]
  · rw [if_neg h0] at h
    simp at h

theorem deleteDoctor_err_state {id : Int} {s : State} {e : String}
    (h : (deleteDoctor id s).1 = .error e) : (deleteDoctor id s).2 = s := by
  unfold deleteDoctor at h ⊢
  by_cases h0 : (id == 0) = true
  · rw [if_pos h0]
  · rw [if_neg h0] at h
    simp at h

theorem deleteBooking_err_state {id : Int} {s : State} {e : String}
    (h : (deleteBooking id s).1 = .error e) : (deleteBooking id s).2 = s := by
  unfold deleteBooking at h ⊢
  by_cases h0 : (id == 0) = true
  · rw [if_pos h0]
  · rw [if_neg h0] at h
    simp at h

theorem createBooking_err_state {p : BookingPayload} {now : Nat} {s : State} {e : String}
    (h : (createBooking p now s).1 = .error e) : (createBooking p now s).2 = s := by
  unfold createBooking at h ⊢
  by_cases h1 : (p.userId == 0 || p.doctorId == 0) = true
  · rw [if_pos h1]
  · rw [if_neg h1] at h ⊢
    by_cases h2 : (!containsKey Doctor.id p.doctorId s.doctors ||
        !containsKey User.id p.userId s.users) = true
    · rw [if_pos h2]
    · rw [if_neg h2] at h ⊢
      by_cases h3 : (decide (p.startSessionAt ≤ now) || decide (p.startSessionAt ≤ now)) = true
      · rw [if_pos h3]
      · rw [if_neg h3] at h ⊢
        by_cases h4 : s.bookings.any
            (sessionConflict p.userId p.doctorId p.startSessionAt p.endSessionAt) = true
        · rw [if_pos h4]
        · rw [if_neg h4] at h
          simp at h

theorem createBooking_users (p : BookingPayload) (now : Nat) (s : State) :
    (createBooking p now s).2.users = s.users := by
  unfold createBooking
  split
  · rfl
  · split
    · rfl
    · split
      · rfl
      · split
        · rfl
        · rfl

theorem createBooking_doctors (p : BookingPayload) (now : Nat) (s : State) :
    (createBooking p now s).2.doctors = s.doctors := by
  unfold createBooking
  split
  · rfl
  · split
    · rfl
    · split
      · rfl
      · split
        · rfl
        · rfl

theorem deleteBooking_users (id : Int) (s : State) :
    (deleteBooking id s).2.users = s.users := by
  unfold deleteBooking
  split
  · rfl
  · rfl

theorem deleteBooking_doctors (id : Int) (s : State) :
    (deleteBooking id s).2.doctors = s.doctors := by
  unfold deleteBooking
  split
  · rfl
  · rfl

theorem sampleState_reachable : Reachable sampleState :=
  Reachable.step _ (Reachable.step _ (Reachable.step _ Reachable.init))

/-- C1: the claim says createBooking's conflict test treats two intervals
`[s1,e1)` and `[s2,e2)` as overlapping iff `s1 < e2 && s2 < e1`, so that
back-to-back adjacent intervals (stored `[10,20)`, candidate `[20,30)`, same
doctor) are accepted.  The code instead rejects the adjacent candidate with
the conflict error — its disjunct `booking.endAt >= startAt` fires — even
though the intended half-open overlap test is false there; the partially
overlapping candidate `[15,25)` is rejected as the claim says. -/
theorem c1_adjacent_interval_rejected :
    (createBooking { userId := 1, doctorId := 1, startSessionAt := 20, endSessionAt := 30 }
        5 bookedState).1 = .error "A session has already been booked!" ∧
    specOverlap 10 20 20 30 = false ∧
    (createBooking { userId := 1, doctorId := 1, startSessionAt := 15, endSessionAt := 25 }
        5 bookedState).1 = .error "A session has already been booked!" ∧
    specOverlap 10 20 15 25 = true :=
  ⟨rfl, rfl, rfl, rfl⟩

/-- C2: the identifier generator returns 1 on an empty collection and
otherwise the highest id present plus one; consequently, after N successful
creates into an initially empty collection (users, doctors or bookings, with
no intervening deletions) the stored ids are exactly 1..N in order. -/
theorem c2_generateId_policy :
    (∀ (α : Type) (key : α → Int), generateId key ([] : List α) = 1) ∧
    (∀ (α : Type) (key : α → Int) (l : List α), KeySorted key l → l ≠ [] →
      ∃ m, generateId key l = m + 1 ∧ (∃ x ∈ l, key x = m) ∧ ∀ x ∈ l, key x ≤ m) ∧
    (∀ (ps : List (String × Nat)) (s : State), createUsersOk ps s = true →
      s.users = [] → (runCreateUsers ps s).users.map User.id = idsFrom1 ps.length) ∧
    (∀ (ps : List (String × Nat)) (s : State), createDoctorsOk ps s = true →
      s.doctors = [] → (runCreateDoctors ps s).doctors.map Doctor.id = idsFrom1 ps.length) ∧
    (∀ (ps : List (BookingPayload × Nat)) (s : State), createBookingsOk ps s = true →
      s.bookings = [] → (runCreateBookings ps s).bookings.map Booking.id = idsFrom1 ps.length) := by
  refine ⟨fun α key => rfl, ?_, ?_, ?_, ?_⟩
  · intro α key l hs hne
    obtain ⟨x0, hx0, hgen⟩ := @generateId_mem α key l hne
    refine ⟨key x0, hgen, ⟨x0, hx0, rfl⟩, ?_⟩
    intro x hx
    have hlt := lt_generateId hs x hx
    rw [hgen] at hlt
    omega
  · intro ps s hok hemp
    have h0 : s.users.map User.id = idsFrom1 0 := by rw [hemp]; rfl
    have h1 := runCreateUsers_ids ps s 0 h0 hok
    rwa [Nat.zero_add] at h1
  · intro ps s hok hemp
    have h0 : s.doctors.map Doctor.id = idsFrom1 0 := by rw [hemp]; rfl
    have h1 := runCreateDoctors_ids ps s 0 h0 hok
    rwa [Nat.zero_add] at h1
  · intro ps s hok hemp
    have h0 : s.bookings.map Booking.id = idsFrom1 0 := by rw [hemp]; rfl
    have h1 := runCreateBookings_ids ps s 0 h0 hok
    rwa [Nat.zero_add] at h1

/-- Witness for C2: three successful `createUser` calls on the fresh canister
store exactly the ids 1, 2, 3. -/
theorem c2_generateId_policy_witness :
    createUsersOk [("ann", 3), ("ben", 4), ("cat", 5)] initState = true ∧
    (runCreateUsers [("ann", 3), ("ben", 4), ("cat", 5)] initState).users.map User.id =
      idsFrom1 3 :=
  ⟨by decide,
   c2_generateId_policy.2.2.1 [("ann", 3), ("ben", 4), ("cat", 5)] initState (by decide) rfl⟩

/-- C3: deleting a user removes every booking whose `userId` matches, deleting
a doctor removes every booking whose `doctorId` matches, and in every
reachable state every stored booking references a stored user and a stored
doctor. -/
theorem c3_cascade_no_dangling (s : State) (h : Reachable s) :
    (∀ id, ∀ b ∈ (deleteUser id s).2.bookings, b.userId ≠ id) ∧
    (∀ id, ∀ b ∈ (deleteDoctor id s).2.bookings, b.doctorId ≠ id) ∧
    (∀ b ∈ s.bookings,
      (∃ u ∈ s.users, u.id = b.userId) ∧ (∃ d ∈ s.doctors, d.id = b.doctorId)) := by
  have hg := good_of_reachable h
  refine ⟨?_, ?_, fun b hb => ⟨hg.refU b hb, hg.refD b hb⟩⟩
  · intro id b hb
    unfold deleteUser at hb
    by_cases h0 : (id == 0) = true
    · rw [if_pos h0] at hb
      have hid : id = 0 := by simpa using h0
      rw [hid]
      exact (hg.bnz b hb).1
    · rw [if_neg h0] at hb
      obtain ⟨_, hcond⟩ := cascade_survivor_ne hg.sb hb
      simpa using hcond
  · intro id b hb
    unfold deleteDoctor at hb
    by_cases h0 : (id == 0) = true
    · rw [if_pos h0] at hb
      have hid : id = 0 := by simpa using h0
      rw [hid]
      exact (hg.bnz b hb).2
    · rw [if_neg h0] at hb
      obtain ⟨_, hcond⟩ := cascade_survivor_ne hg.sb hb
      simpa using hcond

/-- Witness for C3: the cascade and referential-integrity conclusions hold at
a concrete reachable state with one user, one doctor and one booking. -/
theorem c3_cascade_no_dangling_witness :
    Reachable sampleState ∧
    ((∀ id, ∀ b ∈ (deleteUser id sampleState).2.bookings, b.userId ≠ id) ∧
     (∀ id, ∀ b ∈ (deleteDoctor id sampleState).2.bookings, b.doctorId ≠ id) ∧
     (∀ b ∈ sampleState.bookings,
       (∃ u ∈ sampleState.users, u.id = b.userId) ∧
       (∃ d ∈ sampleState.doctors, d.id = b.doctorId))) :=
  ⟨sampleState_reachable, c3_cascade_no_dangling sampleState sampleState_reachable⟩

/-- C5 (code bug): the claim says createBooking rejects a payload whose
`endAt` is not strictly in the future or with `startAt >= endAt`.  The source
tests `startAt <= now` twice and never tests `endAt`, so a payload with
`endAt = 50` in the past (`now = 100`) and `startAt = 200 >= endAt` is
accepted and inserted. -/
theorem c5_vacuous_time_validation :
    (createBooking { userId := 1, doctorId := 1, startSessionAt := 200, endSessionAt := 50 }
        100 freshPairState).1 =
      .ok { id := 1, userId := 1, doctorId := 1, createdAt := 100, startAt := 200, endAt := 50 } ∧
    (createBooking { userId := 1, doctorId := 1, startSessionAt := 200, endSessionAt := 50 }
        100 freshPairState).2.bookings =
      [{ id := 1, userId := 1, doctorId := 1, createdAt := 100, startAt := 200, endAt := 50 }] ∧
    (50 : Nat) ≤ 100 ∧ (200 : Nat) ≥ 50 :=
  ⟨rfl, rfl, by decide, by decide⟩

/-- C6: in every reachable state, profiles of one collection have pairwise
distinct ids and pairwise distinct usernames (exact comparison), and a create
call re-using a stored username fails with the conflict error. -/
theorem c6_profile_uniqueness (s : State) (h : Reachable s) :
    (s.users.map User.id).Nodup ∧ (s.users.map User.username).Nodup ∧
    (s.doctors.map Doctor.id).Nodup ∧ (s.doctors.map Doctor.username).Nodup ∧
    (∀ now, ∀ u ∈ s.users,
      (createUser u.username now s).1 = .error "Username already exist!") ∧
    (∀ now, ∀ d ∈ s.doctors,
      (createDoctor d.username now s).1 = .error "Username already exist!") := by
  have hg := good_of_reachable h
  refine ⟨(List.pairwise_map.mpr hg.su).imp ne_of_lt, hg.uu,
    (List.pairwise_map.mpr hg.sd).imp ne_of_lt, hg.du, ?_, ?_⟩
  · intro now u hu
    unfold createUser
    rw [if_neg (by simpa using hg.une u hu),
      if_pos (List.any_eq_true.mpr ⟨u, hu, by simp⟩)]
  · intro now d hd
    unfold createDoctor
    rw [if_neg (by simpa using hg.dne d hd),
      if_pos (List.any_eq_true.mpr ⟨d, hd, by simp⟩)]

/-- Witness for C6: the uniqueness conclusions hold at a concrete reachable
state. -/
theorem c6_profile_uniqueness_witness :
    Reachable sampleState ∧
    ((sampleState.users.map User.id).Nodup ∧ (sampleState.users.map User.username).Nodup ∧
     (sampleState.doctors.map Doctor.id).Nodup ∧
     (sampleState.doctors.map Doctor.username).Nodup ∧
     (∀ now, ∀ u ∈ sampleState.users,
       (createUser u.username now sampleState).1 = .error "Username already exist!") ∧
     (∀ now, ∀ d ∈ sampleState.doctors,
       (createDoctor d.username now sampleState).1 = .error "Username already exist!")) :=
  ⟨sampleState_reachable, c6_profile_uniqueness sampleState sampleState_reachable⟩

/-- C7: whenever a public call returns an error, the state after the call is
exactly the state before it — every check precedes every write. -/
theorem c7_failure_no_mutation (c : OpCall) (s : State) (e : String)
    (h : (runOp c s).1 = .error e) : (runOp c s).2 = s := by
  cases c with
  | cUser u now => exact createUser_err_state (forgetVal_err h)
  | qUsers => rfl
  | qUser id => exact getUser_state id s
  | dUser id => exact deleteUser_err_state (forgetVal_err h)
  | cDoctor u now => exact createDoctor_err_state (forgetVal_err h)
  | qDoctors => rfl
  | qDoctor id => exact getDoctor_state id s
  | dDoctor id => exact deleteDoctor_err_state (forgetVal_err h)
  | cBooking p now => exact createBooking_err_state (forgetVal_err h)
  | qUserBookings id => exact getUserBookings_state id s
  | qDoctorBookings id => exact getDoctorBookings_state id s
  | dBooking id => exact deleteBooking_err_state (forgetVal_err h)

/-- Witness for C7: a failing `createUser` call on the fresh canister leaves
the state unchanged. -/
theorem c7_failure_no_mutation_witness :
    (runOp (.cUser "" 0) initState).1 = .error "No username provided!" ∧
    (runOp (.cUser "" 0) initState).2 = initState :=
  ⟨rfl, c7_failure_no_mutation (.cUser "" 0) initState "No username provided!" rfl⟩

/-- Counterexample to C8: on the absent positive id 5 of the fresh canister,
`getUser` and `deleteBooking` do not fail — they return `ok none` (the `Opt`
absent value), contradicting the claim that they fail with NotFound rather
than returning an absent value. -/
theorem c8_counterexample :
    (getUser 5 initState).1 = .ok none ∧ (deleteBooking 5 initState).1 = .ok none :=
  ⟨rfl, rfl⟩

/-- C8 as amended: for a nonzero id absent from the relevant collection,
`getUser`/`getDoctor` return `ok none` and `deleteBooking` returns `ok none`,
all leaving the state unchanged (no error is raised); on a present id,
`deleteBooking` returns the stored booking and removes exactly it. -/
theorem c8_absent_returns_none (s : State) (id : Int) (hid : id ≠ 0) :
    ((∀ u ∈ s.users, u.id ≠ id) → getUser id s = (.ok none, s)) ∧
    ((∀ d ∈ s.doctors, d.id ≠ id) → getDoctor id s = (.ok none, s)) ∧
    ((∀ b ∈ s.bookings, b.id ≠ id) → deleteBooking id s = (.ok none, s)) ∧
    (KeySorted Booking.id s.bookings → ∀ b ∈ s.bookings, b.id = id →
      (deleteBooking id s).1 = .ok (some b) ∧
      (deleteBooking id s).2.bookings = s.bookings.filter (fun x => !(x.id == id))) := by
  have hid' : ¬((id == 0) = true) := by simpa using hid
  refine ⟨?_, ?_, ?_, ?_⟩
  · intro habs
    unfold getUser
    rw [if_neg hid', getKey_absent habs]
  · intro habs
    unfold getDoctor
    rw [if_neg hid', getKey_absent habs]
  · intro habs
    unfold deleteBooking
    rw [if_neg hid', removeKey_absent habs]
  · intro hsort b hb hbid
    have hd : deleteBooking id s =
        (Except.ok (removeKey Booking.id id s.bookings).1,
          { s with bookings := (removeKey Booking.id id s.bookings).2 }) := by
      unfold deleteBooking
      rw [if_neg hid']
    rw [hd]
    constructor
    · rw [removeKey_fst_some hsort hb hbid]
    · show (removeKey Booking.id id s.bookings).2 =
        s.bookings.filter (fun x => !(x.id == id))
      exact removeKey_eq_filter hsort

/-- Witness for C8: on the concrete one-booking state, `getUser 5` returns
`ok none` and `deleteBooking 1` returns the stored booking. -/
theorem c8_absent_returns_none_witness :
    getUser 5 bookedState = (.ok none, bookedState) ∧
    (deleteBooking 1 bookedState).1 =
      .ok (some { id := 1, userId := 1, doctorId := 1, createdAt := 0, startAt := 10, endAt := 20 }) :=
  ⟨(c8_absent_returns_none bookedState 5 (by decide)).1 (by decide),
   ((c8_absent_returns_none bookedState 1 (by decide)).2.2.2
     (by simp [bookedState, KeySorted])
     { id := 1, userId := 1, doctorId := 1, createdAt := 0, startAt := 10, endAt := 20 }
     (by simp [bookedState]) rfl).1⟩

/-- Counterexample to C9: the claim says every non-positive id (zero and all
negative ids) is rejected with the invalid-input error, but the source's
falsy check `!id` only catches 0: on the negative id -1 both listing calls
succeed and return the (empty) filtered list. -/
theorem c9_counterexample :
    (getUserBookings (-1) initState).1 = .ok [] ∧
    (getDoctorBookings (-1) initState).1 = .ok [] :=
  ⟨rfl, rfl⟩

/-- C9 as amended: `getUserBookings`/`getDoctorBookings` fail with the
invalid-input error exactly for id 0; for every nonzero id (positive or
negative) they return exactly the bookings with the matching foreign key, in
key order, leaving the state unchanged. -/
theorem c9_listBookings_spec (id : Int) (s : State) :
    (id = 0 → (getUserBookings id s).1 = .error "Invalid id input field!" ∧
      (getDoctorBookings id s).1 = .error "Invalid id input field!") ∧
    (id ≠ 0 →
      getUserBookings id s = (.ok (s.bookings.filter (fun b => b.userId == id)), s) ∧
      getDoctorBookings id s = (.ok (s.bookings.filter (fun b => b.doctorId == id)), s)) ∧
    (KeySorted Booking.id s.bookings →
      KeySorted Booking.id (s.bookings.filter (fun b => b.userId == id)) ∧
      KeySorted Booking.id (s.bookings.filter (fun b => b.doctorId == id))) := by
  refine ⟨?_, ?_, ?_⟩
  · intro h0
    subst h0
    exact ⟨rfl, rfl⟩
  · intro hne
    have hid' : ¬((id == 0) = true) := by simpa using hne
    constructor
    · unfold getUserBookings
      rw [if_neg hid']
    · unfold getDoctorBookings
      rw [if_neg hid']
  · intro hsort
    exact ⟨List.Pairwise.sublist (List.filter_sublist s.bookings) hsort,
      List.Pairwise.sublist (List.filter_sublist s.bookings) hsort⟩

/-- Witness for C9: on the concrete one-booking state, id 0 is rejected and
id 1 returns the one matching booking. -/
theorem c9_listBookings_spec_witness :
    (getUserBookings 0 bookedState).1 = .error "Invalid id input field!" ∧
    getUserBookings 1 bookedState =
      (.ok (bookedState.bookings.filter (fun b => b.userId == 1)), bookedState) :=
  ⟨((c9_listBookings_spec 0 bookedState).1 rfl).1,
   ((c9_listBookings_spec 1 bookedState).2.1 (by decide)).1⟩

/-- C10: `createBooking` and `deleteBooking` never touch the users or doctors
collections, whether they succeed or fail. -/
theorem c10_booking_ops_frame (p : BookingPayload) (now : Nat) (id : Int) (s : State) :
    (createBooking p now s).2.users = s.users ∧
    (createBooking p now s).2.doctors = s.doctors ∧
    (deleteBooking id s).2.users = s.users ∧
    (deleteBooking id s).2.doctors = s.doctors :=
  ⟨createBooking_users p now s, createBooking_doctors p now s,
   deleteBooking_users id s, deleteBooking_doctors id s⟩

end VD

namespace VD2

/-- C4 (code bug): the claim says deleting a profile presented by a principal
other than its creator fails with an Unauthorized error and leaves the
profile in place.  The second iteration stamps `owner` at creation but
`deleteUser` never consults the caller: a user created with owner principal
10 is deleted successfully by a call whose ambient caller is the different
principal 20, and the profile is removed. -/
theorem c4_delete_ignores_owner :
    (createUser "alice" 10 0 initState).1 =
      Except.ok { id := 1, username := "alice", owner := 10, createdAt := 0 } ∧
    deleteUser 20 1 (createUser "alice" 10 0 initState).2 =
      (Except.ok (some { id := 1, username := "alice", owner := 10, createdAt := 0 }),
        initState) :=
  ⟨rfl, rfl⟩

end VD2
